import Mathlib

/-!
Shallow embedding of the A2A communication system
(`src/communication/a2a_system.py`): the message broker's registry, routing
strategies, delivery loop, retry processor, and the workflow orchestrator's
default sequential workflow.  Python dicts are modelled as insertion-ordered
association lists, asyncio queues as lists, and the externally raised
exceptions of an agent hand-off as explicit boolean parameters.
-/

namespace A2A

/-- Reading `d.get(key)` from a Python dict modelled as an insertion-ordered
association list. -/
def dictGet {α : Type} : List (String × α) → String → Option α
  | [], _ => none
  | (k, v) :: rest, key => if k = key then some v else dictGet rest key

/-- Writing `d[key] = v` in a Python dict: an existing key keeps its position,
a new key is appended at the end. -/
def dictSet {α : Type} : List (String × α) → String → α → List (String × α)
  | [], key, v => [(key, v)]
  | (k, w) :: rest, key, v =>
      if k = key then (key, v) :: rest else (k, w) :: dictSet rest key v

/-- Message content as read by the routing code: the only key the broker ever
inspects is `required_skills` (`content.get("required_skills", [])`); `none`
models an absent key. -/
structure MsgContent where
  required_skills : Option (List String)
deriving DecidableEq

/-- Embedding of `AgentMessage` (base_agent.py): the fields the broker reads
or writes.  `message_type` and `priority` are carried as strings; `timestamp`
and `requires_response` are never consulted by the broker and are omitted. -/
structure AgentMessage where
  id : String
  sender_id : String
  recipient_id : String
  message_type : String
  content : MsgContent
  priority : String
deriving DecidableEq

/-- The attributes of a registered `BaseAgent` that the broker consults. -/
structure AgentInfo where
  name : String
  department : String
  capabilities : List String
deriving DecidableEq

/-- Embedding of `MessageRoute`; `route_hops` is never written and
`delivery_timestamp` is real time, both omitted. -/
structure MessageRoute where
  sender_id : String
  recipient_id : String
  message_id : String
  delivery_status : String
deriving DecidableEq

/-- The integer counters of `CommunicationMetrics`; the floating point fields
(`average_delivery_time`, `throughput_per_second`) are written only by the
metrics updater task and are not modelled. -/
structure CommunicationMetrics where
  messages_sent : Nat
  messages_delivered : Nat
  messages_failed : Nat
  active_connections : Nat
deriving DecidableEq

/-- One record of `message_history` (the `timestamp` field is real time and
omitted). -/
structure HistoryEntry where
  message_id : String
  sender : String
  recipient : String
  success : Bool
deriving DecidableEq

/-- The mutable state of `MessageBroker.__init__`.  `routing_table` and
`delivery_confirmations` are initialised but never used by any code path of
the file and are omitted; `message_queues` holds each agent's broker-side
mailbox as a FIFO list. -/
structure MessageBroker where
  agents : List (String × AgentInfo)
  message_queues : List (String × List AgentMessage)
  message_history : List HistoryEntry
  active_routes : List (String × MessageRoute)
  metrics : CommunicationMetrics
  retry_queues : List (String × List AgentMessage)
  agent_loads : List (String × Nat)
  skill_registry : List (String × List String)
deriving DecidableEq

def emptyBroker : MessageBroker :=
  { agents := [], message_queues := [], message_history := [], active_routes := [],
    metrics := { messages_sent := 0, messages_delivered := 0, messages_failed := 0,
                 active_connections := 0 },
    retry_queues := [], agent_loads := [], skill_registry := [] }

/-- Python `set.update`: add each element not already present. -/
def setUpdate (old : List String) : List String → List String
  | [] => old
  | x :: rest => setUpdate (if old.contains x then old else old ++ [x]) rest

/-- Embedding of `MessageBroker.register_agent`. -/
def register_agent (s : MessageBroker) (agent_id : String) (a : AgentInfo) : MessageBroker :=
  { s with
    agents := dictSet s.agents agent_id a,
    message_queues := dictSet s.message_queues agent_id [],
    agent_loads := dictSet s.agent_loads agent_id 0,
    skill_registry := dictSet s.skill_registry agent_id
      (setUpdate ((dictGet s.skill_registry agent_id).getD []) a.capabilities),
    metrics := { s.metrics with active_connections := s.metrics.active_connections + 1 } }

inductive RoutingStrategy
  | direct
  | broadcast
  | round_robin
  | load_balanced
  | skill_based
deriving DecidableEq

/-- Embedding of `MessageBroker._route_direct`: an unknown recipient fails;
otherwise the message itself is appended to the recipient's mailbox and the
recipient's load counter is incremented (`agent_loads` is a
`defaultdict(int)`, hence the default 0 on a missing key).  The
`try`/`except` around the `asyncio.Queue.put` of an unbounded queue cannot
fire and has no counterpart. -/
def route_direct (s : MessageBroker) (m : AgentMessage) : Bool × MessageBroker :=
  match dictGet s.message_queues m.recipient_id with
  | none => (false, s)
  | some q =>
      (true, { s with
        message_queues := dictSet s.message_queues m.recipient_id (q ++ [m]),
        agent_loads := dictSet s.agent_loads m.recipient_id
          ((dictGet s.agent_loads m.recipient_id).getD 0 + 1) })

/-- The list comprehension `[aid for aid, agent in agents.items() if
agent.department == department]`, in dict insertion order. -/
def category_agents (s : MessageBroker) (department : String) : List String :=
  (s.agents.filter fun p => decide (p.2.department = department)).map Prod.fst

/-- The broadcast target list: agents whose department matches, or every
agent when the recipient is the literal `"all"`. -/
def broadcast_targets (s : MessageBroker) (department : String) : List String :=
  (s.agents.filter fun p =>
    decide (p.2.department = department ∨ department = "all")).map Prod.fst

/-- The per-agent clone built inside `_route_broadcast`, with the derived id. -/
def broadcast_clone (m : AgentMessage) (agent_id : String) : AgentMessage :=
  { id := m.id ++ "_" ++ agent_id, sender_id := m.sender_id, recipient_id := agent_id,
    message_type := m.message_type, content := m.content, priority := m.priority }

/-- The `for agent_id in target_agents` loop of `_route_broadcast`: enqueue a
clone per target and count successes; a target without a mailbox raises a
`KeyError` that the `except` swallows, leaving the count unchanged. -/
def broadcast_loop (m : AgentMessage) : List String → Nat → MessageBroker → Nat × MessageBroker
  | [], success_count, s => (success_count, s)
  | agent_id :: rest, success_count, s =>
      match dictGet s.message_queues agent_id with
      | none => broadcast_loop m rest success_count s
      | some q => broadcast_loop m rest (success_count + 1)
          { s with message_queues :=
              dictSet s.message_queues agent_id (q ++ [broadcast_clone m agent_id]) }

/-- Embedding of `MessageBroker._route_broadcast`. -/
def route_broadcast (s : MessageBroker) (m : AgentMessage) : Bool × MessageBroker :=
  let r := broadcast_loop m (broadcast_targets s m.recipient_id) 0 s
  (decide (r.1 > 0), r.2)

/-- Embedding of `MessageBroker._route_round_robin`: index the category's
agent list by `metrics.messages_sent % len`, then route direct. -/
def route_round_robin (s : MessageBroker) (m : AgentMessage) : Bool × MessageBroker :=
  let available_agents := category_agents s m.recipient_id
  if available_agents.isEmpty then (false, s)
  else
    let selected_agent :=
      available_agents.getD (s.metrics.messages_sent % available_agents.length) ""
    route_direct s { m with recipient_id := selected_agent }

/-- Python `min(xs, key := k)` starting from a current best: later elements
replace the best only when strictly smaller, so the first minimal element of
the iteration wins ties. -/
def pyFoldMin (key : String → Nat) (best : String) : List String → String
  | [] => best
  | a :: rest => pyFoldMin key (if key a < key best then a else best) rest

/-- Python `min(xs, key := k)` on a possibly empty list. -/
def pyMinBy (key : String → Nat) : List String → Option String
  | [] => none
  | x :: rest => some (pyFoldMin key x rest)

/-- Python `max(xs, key := k)` starting from a current best: later elements
replace the best only when strictly greater, so the first maximal element of
the iteration wins ties. -/
def pyFoldMax (key : String → Nat) (best : String) : List String → String
  | [] => best
  | a :: rest => pyFoldMax key (if key best < key a then a else best) rest

/-- Python `max(xs, key := k)` on a possibly empty list. -/
def pyMaxBy (key : String → Nat) : List String → Option String
  | [] => none
  | x :: rest => some (pyFoldMax key x rest)

/-- The ranking used by `_route_load_balanced`: `agent_loads[aid]`, a
`defaultdict(int)` read. -/
def lb_key (s : MessageBroker) (aid : String) : Nat :=
  (dictGet s.agent_loads aid).getD 0

/-- Embedding of `MessageBroker._route_load_balanced`:
`min(available_agents, key := agent_loads[aid])`, then route direct. -/
def route_load_balanced (s : MessageBroker) (m : AgentMessage) : Bool × MessageBroker :=
  match pyMinBy (lb_key s) (category_agents s m.recipient_id) with
  | none => (false, s)
  | some selected_agent => route_direct s { m with recipient_id := selected_agent }

/-- Python `len(set(required_skills) & skills)`: the number of distinct
required skills the capability set contains. -/
def skillOverlap (required_skills caps : List String) : Nat :=
  (required_skills.dedup.filter fun sk => caps.contains sk).length

/-- The agents of `skill_registry` with at least one required skill, in dict
insertion order (`any(skill in skills for skill in required_skills)`). -/
def matching_agents_for (s : MessageBroker) (required_skills : List String) : List String :=
  (s.skill_registry.filter fun p =>
    required_skills.any fun sk => p.2.contains sk).map Prod.fst

/-- The ranking used by `_route_skill_based`:
`len(set(required_skills) & skill_registry[aid])`. -/
def skill_key (s : MessageBroker) (required_skills : List String) (aid : String) : Nat :=
  skillOverlap required_skills ((dictGet s.skill_registry aid).getD [])

/-- Embedding of `MessageBroker._route_skill_based`: an absent or empty
`required_skills` falls back to direct routing; otherwise
`max(matching_agents, key := overlap)` picks the best agent. -/
def route_skill_based (s : MessageBroker) (m : AgentMessage) : Bool × MessageBroker :=
  let required_skills := m.content.required_skills.getD []
  if required_skills.isEmpty then route_direct s m
  else
    match pyMaxBy (skill_key s required_skills) (matching_agents_for s required_skills) with
    | none => (false, s)
    | some best_agent => route_direct s { m with recipient_id := best_agent }

/-- Embedding of `MessageBroker._route_message`'s strategy dispatch. -/
def route_message (s : MessageBroker) (m : AgentMessage) :
    RoutingStrategy → Bool × MessageBroker
  | RoutingStrategy.direct => route_direct s m
  | RoutingStrategy.broadcast => route_broadcast s m
  | RoutingStrategy.round_robin => route_round_robin s m
  | RoutingStrategy.load_balanced => route_load_balanced s m
  | RoutingStrategy.skill_based => route_skill_based s m

/-- The `AgentMessage(...)` constructed at the top of `send_message`; the
`uuid4` id is passed in as `fid`. -/
def mkMessage (fid sender_id recipient_id message_type : String) (content : MsgContent)
    (priority : String) : AgentMessage :=
  { id := fid, sender_id := sender_id, recipient_id := recipient_id,
    message_type := message_type, content := content, priority := priority }

/-- Appending to the `deque(maxlen=10000)` message history. -/
def historyAppend (h : List HistoryEntry) (e : HistoryEntry) : List HistoryEntry :=
  if h.length < 10000 then h ++ [e] else h.tail ++ [e]

/-- Embedding of `MessageBroker.send_message`: build the message and a
pending route, route by strategy, then on success bump `messages_sent` and
mark the route `"sent"`, on failure mark it `"failed"` and bump
`messages_failed`; record history; return the message id (and the whole
result state) — the id is the only value handed back to the caller. -/
def send_message (s : MessageBroker) (sender_id recipient_id message_type : String)
    (content : MsgContent) (priority : String) (routing_strategy : RoutingStrategy)
    (fid : String) : String × MessageBroker :=
  let message := mkMessage fid sender_id recipient_id message_type content priority
  let route : MessageRoute :=
    { sender_id := sender_id, recipient_id := recipient_id, message_id := message.id,
      delivery_status := "pending" }
  let s1 := { s with active_routes := dictSet s.active_routes message.id route }
  let r := route_message s1 message routing_strategy
  let s2 :=
    if r.1 then
      { r.2 with
        metrics := { r.2.metrics with messages_sent := r.2.metrics.messages_sent + 1 },
        active_routes := dictSet r.2.active_routes message.id
          { route with delivery_status := "sent" } }
    else
      { r.2 with
        active_routes := dictSet r.2.active_routes message.id
          { route with delivery_status := "failed" },
        metrics := { r.2.metrics with messages_failed := r.2.metrics.messages_failed + 1 } }
  (message.id,
   { s2 with message_history :=
       historyAppend s2.message_history ⟨message.id, sender_id, recipient_id, r.1⟩ })

/-- The routing outcome computed inside `send_message` (the local `success`
variable), exposed as an observer: it is never part of the returned value. -/
def send_routing_result (s : MessageBroker) (sender_id recipient_id message_type : String)
    (content : MsgContent) (priority : String) (routing_strategy : RoutingStrategy)
    (fid : String) : Bool :=
  let route : MessageRoute :=
    { sender_id := sender_id, recipient_id := recipient_id, message_id := fid,
      delivery_status := "pending" }
  (route_message
    { s with active_routes := dictSet s.active_routes fid route }
    (mkMessage fid sender_id recipient_id message_type content priority)
    routing_strategy).1

/-- Embedding of `MessageBroker._deliver_to_agent`: the hand-off to the
agent's own `asyncio.Queue` is outside the broker state; whether the `put`
raises is the environment parameter `handoff_raises`.  When it raises, the
message is first appended to that agent's retry queue (`retry_queues` is a
`defaultdict(list)`) and the exception is re-raised; the returned flag says
whether an exception escaped. -/
def deliver_to_agent (s : MessageBroker) (agent_id : String) (m : AgentMessage)
    (handoff_raises : Bool) : Bool × MessageBroker :=
  if handoff_raises then
    let backlog := ((dictGet s.retry_queues agent_id).getD []) ++ [m]
    (true, { s with retry_queues := dictSet s.retry_queues agent_id backlog })
  else (false, s)

/-- One iteration of `_message_processor`'s inner loop for one agent: when
the agent's mailbox is non-empty and the agent is registered, pop the head
and hand it off.  On success: `messages_delivered += 1`, the load counter is
decremented (floored at 0) and the route is marked `"delivered"`.  On an
exception from `_deliver_to_agent` control jumps to the `except` clause,
which only logs and bumps `messages_failed`: the delivered counter, the load
decrement and the route update are all skipped. -/
def process_agent_step (s : MessageBroker) (agent_id : String)
    (handoff_raises : Bool) : MessageBroker :=
  match dictGet s.message_queues agent_id with
  | none => s
  | some [] => s
  | some (message :: rest) =>
      if (dictGet s.agents agent_id).isSome then
        let s1 := { s with message_queues := dictSet s.message_queues agent_id rest }
        let r := deliver_to_agent s1 agent_id message handoff_raises
        if r.1 then
          { r.2 with metrics :=
              { r.2.metrics with messages_failed := r.2.metrics.messages_failed + 1 } }
        else
          let s2 := { r.2 with
            metrics := { r.2.metrics with
              messages_delivered := r.2.metrics.messages_delivered + 1 },
            agent_loads := dictSet r.2.agent_loads agent_id
              (max 0 (((dictGet r.2.agent_loads agent_id).getD 0) - 1)) }
          match dictGet s2.active_routes message.id with
          | none => s2
          | some route =>
              let route2 := { route with delivery_status := "delivered" }
              { s2 with active_routes := dictSet s2.active_routes message.id route2 }
      else s

/-- One iteration of `_retry_processor`'s inner loop for one agent: when the
retry queue is non-empty and the agent is registered, pop the oldest entry
(`pop(0)`) and re-attempt the hand-off.  On a renewed exception the `except`
clause re-appends the message only while the queue holds fewer than 100
entries — but `_deliver_to_agent` itself has already unconditionally
re-appended the message before raising. -/
def retry_agent_step (s : MessageBroker) (agent_id : String)
    (handoff_raises : Bool) : MessageBroker :=
  match dictGet s.retry_queues agent_id with
  | none => s
  | some [] => s
  | some (message :: rest) =>
      if (dictGet s.agents agent_id).isSome then
        let s1 := { s with retry_queues := dictSet s.retry_queues agent_id rest }
        let r := deliver_to_agent s1 agent_id message handoff_raises
        if r.1 then
          let retry_queue := (dictGet r.2.retry_queues agent_id).getD []
          if retry_queue.length < 100 then
            { r.2 with retry_queues :=
                dictSet r.2.retry_queues agent_id (retry_queue ++ [message]) }
          else r.2
        else r.2
      else s

/-- Iterated delivery-loop steps for one agent (each step popping one
mailbox message), with every hand-off raising: a permanently failing agent. -/
def processFailN (s : MessageBroker) (agent_id : String) : Nat → MessageBroker
  | 0 => s
  | n + 1 => processFailN (process_agent_step s agent_id true) agent_id n

/-- One completed-step record of `steps_completed` (the `timestamp` field is
real time and omitted). -/
structure StepRecord where
  step : Nat
  agent_id : String
  message_id : String
deriving DecidableEq

/-- The dict returned by `_execute_default_workflow`. -/
structure WorkflowResult where
  workflow_id : String
  steps_completed : Nat
  results : List String
deriving DecidableEq

/-- Embedding of a `workflow_instance` dict: the fields written by
`execute_workflow` and `_execute_default_workflow` (`start_time`/`end_time`
are real time and omitted; `current_step` is never updated after init). -/
structure WorkflowInstance where
  id : String
  name : String
  agents : List String
  status : String
  steps_completed : List StepRecord
  error : Option String
  result : Option WorkflowResult
deriving DecidableEq

/-- The `for i, agent_id in enumerate(workflow["agents"])` loop of
`_execute_default_workflow`, over the remaining agents with `i` completed
steps so far.  `freshIds j` is the uuid the broker draws for step `j`'s
message; `stepExc j` is the exception (if any) the awaited step-`j` body
raises — when it raises, the loop is abandoned and the exception propagates
before step `j`'s send and record happen.  Each completed iteration sends the
step's `task_request` through the broker, appends a `steps_completed` record
and a result string. -/
def runSteps (freshIds : Nat → String) (stepExc : Nat → Option String) :
    List String → Nat → MessageBroker → WorkflowInstance → List String →
    (Except String (List String)) × MessageBroker × WorkflowInstance
  | [], _, broker, wf, results => (Except.ok results, broker, wf)
  | agent_id :: restAgents, i, broker, wf, results =>
      match stepExc (i + 1) with
      | some e => (Except.error e, broker, wf)
      | none =>
          let r := send_message broker "workflow_orchestrator" agent_id "task_request"
            ⟨none⟩ "high" RoutingStrategy.direct (freshIds (i + 1))
          let wf2 := { wf with steps_completed := wf.steps_completed ++
              [{ step := i + 1, agent_id := agent_id, message_id := r.1 }] }
          runSteps freshIds stepExc restAgents (i + 1) r.2 wf2
            (results ++ ["Step " ++ toString (i + 1) ++ " completed by " ++ agent_id])

/-- Embedding of `WorkflowOrchestrator.execute_workflow` on the default
(sequential) path: build the running instance, run the steps, and on normal
return mark it `"completed"` with the result dict, while any step's
exception is caught and turns the instance `"failed"` with `error` set —
the remaining steps were never reached. -/
def execute_workflow_default (broker : MessageBroker) (workflow_id workflow_name : String)
    (participating_agents : List String) (freshIds : Nat → String)
    (stepExc : Nat → Option String) : MessageBroker × WorkflowInstance :=
  let wf : WorkflowInstance :=
    { id := workflow_id, name := workflow_name, agents := participating_agents,
      status := "running", steps_completed := [], error := none, result := none }
  match runSteps freshIds stepExc participating_agents 0 broker wf [] with
  | (Except.ok results, broker2, wf2) =>
      let res : WorkflowResult :=
        { workflow_id := wf2.id, steps_completed := wf2.steps_completed.length,
          results := results }
      (broker2, { wf2 with status := "completed", result := some res })
  | (Except.error e, broker2, wf2) =>
      (broker2, { wf2 with status := "failed", error := some e })

/-! Basic facts about the dict model. -/

theorem dictGet_dictSet_self {α : Type} (d : List (String × α)) (k : String) (v : α) :
    dictGet (dictSet d k v) k = some v := by
  induction d with
  | nil => simp [dictGet, dictSet]
  | cons p rest ih =>
      obtain ⟨k0, v0⟩ := p
      by_cases h : k0 = k
      · simp [dictSet, dictGet, h]
      · simp [dictSet, dictGet, h, ih]

theorem dictGet_dictSet_ne {α : Type} (d : List (String × α)) (k k2 : String) (v : α)
    (h : k2 ≠ k) : dictGet (dictSet d k v) k2 = dictGet d k2 := by
  induction d with
  | nil =>
      have hk : k ≠ k2 := fun hh => h hh.symm
      simp [dictGet, dictSet, hk]
  | cons p rest ih =>
      obtain ⟨k0, v0⟩ := p
      by_cases h0 : k0 = k
      · subst h0
        have hk : k0 ≠ k2 := fun hh => h hh.symm
        simp [dictSet, dictGet, hk]
      · by_cases h2 : k0 = k2
        · simp [dictSet, dictGet, h0, h2, h]
        · simp [dictSet, dictGet, h0, h2, ih]

/-! Concrete fixtures used by the witnesses and counterexamples. -/

def rdBroker : MessageBroker :=
  register_agent
    (register_agent emptyBroker "alice"
      { name := "Alice", department := "research", capabilities := [] })
    "bob" { name := "Bob", department := "research", capabilities := [] }

def rdMsg : AgentMessage :=
  { id := "m1", sender_id := "bob", recipient_id := "alice",
    message_type := "task_request", content := ⟨none⟩, priority := "medium" }

def rdMsgGhost : AgentMessage :=
  { id := "m2", sender_id := "bob", recipient_id := "ghost",
    message_type := "task_request", content := ⟨none⟩, priority := "medium" }

/-- C8: sending with the Direct strategy to a registered agent appends
exactly that message (same id) to that agent's mailbox and changes no other
mailbox; sending Direct to an unregistered recipient fails and leaves the
whole broker state unchanged — no mailbox entry is created anywhere. -/
theorem C8_direct_routing (s : MessageBroker) (m : AgentMessage) :
    (∀ q, dictGet s.message_queues m.recipient_id = some q →
      (route_direct s m).1 = true ∧
      dictGet (route_direct s m).2.message_queues m.recipient_id = some (q ++ [m]) ∧
      ∀ other, other ≠ m.recipient_id →
        dictGet (route_direct s m).2.message_queues other =
          dictGet s.message_queues other) ∧
    (dictGet s.message_queues m.recipient_id = none →
      (route_direct s m).1 = false ∧ (route_direct s m).2 = s) := by
  constructor
  · intro q hq
    refine ⟨by simp [route_direct, hq], ?_, ?_⟩
    · simp only [route_direct, hq]
      exact dictGet_dictSet_self s.message_queues m.recipient_id (q ++ [m])
    · intro other hne
      simp only [route_direct, hq]
      exact dictGet_dictSet_ne s.message_queues m.recipient_id other (q ++ [m]) hne
  · intro h
    simp [route_direct, h]

/-- Witness for C8 at a concrete broker: "alice" receives exactly the sent
message, "bob"'s mailbox stays empty, and a send to the unregistered
"ghost" fails leaving the state untouched. -/
theorem C8_direct_routing_witness :
    dictGet (route_direct rdBroker rdMsg).2.message_queues "alice" = some [rdMsg] ∧
    dictGet (route_direct rdBroker rdMsg).2.message_queues "bob" = some [] ∧
    (route_direct rdBroker rdMsgGhost).1 = false ∧
    (route_direct rdBroker rdMsgGhost).2 = rdBroker := by
  obtain ⟨hreg, _⟩ := C8_direct_routing rdBroker rdMsg
  obtain ⟨_, hbox, hother⟩ := hreg [] (by decide)
  obtain ⟨_, hghost⟩ := C8_direct_routing rdBroker rdMsgGhost
  obtain ⟨hg1, hg2⟩ := hghost (by decide)
  refine ⟨by simpa using hbox, ?_, hg1, hg2⟩
  have hb := hother "bob" (by decide)
  rw [hb]; decide

def sfMsg : AgentMessage :=
  { id := "m3", sender_id := "bob", recipient_id := "alice",
    message_type := "task_request", content := ⟨none⟩, priority := "medium" }

/-- C10: a message routed with the skill-based strategy whose content has no
`required_skills` key, or an empty list there, is routed identically to
Direct routing at the literal recipient id — no skill matching and no
failure. -/
theorem C10_skill_fallback (s : MessageBroker) (m : AgentMessage)
    (h : m.content.required_skills = none ∨ m.content.required_skills = some []) :
    route_skill_based s m = route_direct s m := by
  rcases h with h | h <;> simp [route_skill_based, h]

/-- Witness for C10: the fallback at a concrete broker and message with an
absent `required_skills` key. -/
theorem C10_skill_fallback_witness :
    sfMsg.content.required_skills = none ∧
    route_skill_based rdBroker sfMsg = route_direct rdBroker sfMsg :=
  ⟨rfl, C10_skill_fallback rdBroker sfMsg (Or.inl rfl)⟩

/-! Facts about Python `min`/`max` with a key function: the result is an
extreme element, and ties go to the first extreme element in iteration
order (later elements replace the running best only on a strict
improvement). -/

theorem pyFoldMin_le (key : String → Nat) (xs : List String) :
    ∀ best, key (pyFoldMin key best xs) ≤ key best ∧
      ∀ x ∈ xs, key (pyFoldMin key best xs) ≤ key x := by
  induction xs with
  | nil =>
      intro best
      exact ⟨le_refl _, by intro x hx; cases hx⟩
  | cons a rest ih =>
      intro best
      by_cases h : key a < key best
      · have heq : pyFoldMin key best (a :: rest) = pyFoldMin key a rest := by
          simp [pyFoldMin, h]
        have ha := ih a
        refine ⟨by rw [heq]; exact le_trans ha.1 (le_of_lt h), ?_⟩
        intro x hx
        rw [heq]
        rcases List.mem_cons.mp hx with hx | hx
        · subst hx; exact ha.1
        · exact ha.2 x hx
      · have heq : pyFoldMin key best (a :: rest) = pyFoldMin key best rest := by
          simp [pyFoldMin, h]
        have hb := ih best
        refine ⟨by rw [heq]; exact hb.1, ?_⟩
        intro x hx
        rw [heq]
        rcases List.mem_cons.mp hx with hx | hx
        · subst hx; exact le_trans hb.1 (le_of_not_lt h)
        · exact hb.2 x hx

theorem pyFoldMin_first (key : String → Nat) (xs : List String) :
    ∀ best, ∃ l₁ l₂, best :: xs = l₁ ++ pyFoldMin key best xs :: l₂ ∧
      ∀ a ∈ l₁, key (pyFoldMin key best xs) < key a := by
  induction xs with
  | nil =>
      intro best
      exact ⟨[], [], rfl, by intro a ha; cases ha⟩
  | cons a rest ih =>
      intro best
      by_cases h : key a < key best
      · have heq : pyFoldMin key best (a :: rest) = pyFoldMin key a rest := by
          simp [pyFoldMin, h]
        obtain ⟨l₁, l₂, hdec, hlt⟩ := ih a
        refine ⟨best :: l₁, l₂, ?_, ?_⟩
        · rw [heq, List.cons_append]
          exact congrArg (List.cons best) hdec
        · intro x hx
          rw [heq]
          rcases List.mem_cons.mp hx with hx | hx
          · subst hx
            exact lt_of_le_of_lt (pyFoldMin_le key rest a).1 h
          · exact hlt x hx
      · have heq : pyFoldMin key best (a :: rest) = pyFoldMin key best rest := by
          simp [pyFoldMin, h]
        obtain ⟨l₁, l₂, hdec, hlt⟩ := ih best
        cases l₁ with
        | nil =>
            have hr : best = pyFoldMin key best rest := (List.cons.injEq _ _ _ _).mp hdec |>.1
            refine ⟨[], a :: rest, ?_, by intro x hx; cases hx⟩
            rw [heq, ← hr]
            rfl
        | cons b l₁t =>
            have hinj := (List.cons.injEq _ _ _ _).mp (by simpa [List.cons_append] using hdec)
            obtain ⟨hb, hrest⟩ := hinj
            refine ⟨best :: a :: l₁t, l₂, ?_, ?_⟩
            · rw [heq, List.cons_append, List.cons_append]
              exact congrArg (List.cons best) (congrArg (List.cons a) hrest)
            · intro x hx
              rw [heq]
              have hrb : key (pyFoldMin key best rest) < key best :=
                hb ▸ hlt b (List.mem_cons_self b l₁t)
              rcases List.mem_cons.mp hx with hx | hx
              · rw [hx]; exact hrb
              · rcases List.mem_cons.mp hx with hx | hx
                · rw [hx]
                  exact lt_of_lt_of_le hrb (le_of_not_lt h)
                · exact hlt x (List.mem_cons_of_mem b hx)

theorem pyFoldMax_ge (key : String → Nat) (xs : List String) :
    ∀ best, key best ≤ key (pyFoldMax key best xs) ∧
      ∀ x ∈ xs, key x ≤ key (pyFoldMax key best xs) := by
  induction xs with
  | nil =>
      intro best
      exact ⟨le_refl _, by intro x hx; cases hx⟩
  | cons a rest ih =>
      intro best
      by_cases h : key best < key a
      · have heq : pyFoldMax key best (a :: rest) = pyFoldMax key a rest := by
          simp [pyFoldMax, h]
        have ha := ih a
        refine ⟨by rw [heq]; exact le_trans (le_of_lt h) ha.1, ?_⟩
        intro x hx
        rw [heq]
        rcases List.mem_cons.mp hx with hx | hx
        · subst hx; exact ha.1
        · exact ha.2 x hx
      · have heq : pyFoldMax key best (a :: rest) = pyFoldMax key best rest := by
          simp [pyFoldMax, h]
        have hb := ih best
        refine ⟨by rw [heq]; exact hb.1, ?_⟩
        intro x hx
        rw [heq]
        rcases List.mem_cons.mp hx with hx | hx
        · subst hx; exact le_trans (le_of_not_lt h) hb.1
        · exact hb.2 x hx

theorem pyFoldMax_first (key : String → Nat) (xs : List String) :
    ∀ best, ∃ l₁ l₂, best :: xs = l₁ ++ pyFoldMax key best xs :: l₂ ∧
      ∀ a ∈ l₁, key a < key (pyFoldMax key best xs) := by
  induction xs with
  | nil =>
      intro best
      exact ⟨[], [], rfl, by intro a ha; cases ha⟩
  | cons a rest ih =>
      intro best
      by_cases h : key best < key a
      · have heq : pyFoldMax key best (a :: rest) = pyFoldMax key a rest := by
          simp [pyFoldMax, h]
        obtain ⟨l₁, l₂, hdec, hlt⟩ := ih a
        refine ⟨best :: l₁, l₂, ?_, ?_⟩
        · rw [heq, List.cons_append]
          exact congrArg (List.cons best) hdec
        · intro x hx
          rw [heq]
          rcases List.mem_cons.mp hx with hx | hx
          · subst hx
            exact lt_of_lt_of_le h (pyFoldMax_ge key rest a).1
          · exact hlt x hx
      · have heq : pyFoldMax key best (a :: rest) = pyFoldMax key best rest := by
          simp [pyFoldMax, h]
        obtain ⟨l₁, l₂, hdec, hlt⟩ := ih best
        cases l₁ with
        | nil =>
            have hr : best = pyFoldMax key best rest := (List.cons.injEq _ _ _ _).mp hdec |>.1
            refine ⟨[], a :: rest, ?_, by intro x hx; cases hx⟩
            rw [heq, ← hr]
            rfl
        | cons b l₁t =>
            have hinj := (List.cons.injEq _ _ _ _).mp (by simpa [List.cons_append] using hdec)
            obtain ⟨hb, hrest⟩ := hinj
            refine ⟨best :: a :: l₁t, l₂, ?_, ?_⟩
            · rw [heq, List.cons_append, List.cons_append]
              exact congrArg (List.cons best) (congrArg (List.cons a) hrest)
            · intro x hx
              rw [heq]
              have hrb : key best < key (pyFoldMax key best rest) :=
                hb ▸ hlt b (List.mem_cons_self b l₁t)
              rcases List.mem_cons.mp hx with hx | hx
              · rw [hx]; exact hrb
              · rcases List.mem_cons.mp hx with hx | hx
                · rw [hx]
                  exact lt_of_le_of_lt (le_of_not_lt h) hrb
                · exact hlt x (List.mem_cons_of_mem b hx)

/-! Load-balanced routing (C3). -/

def opsInfo (n : String) : AgentInfo :=
  { name := n, department := "ops", capabilities := [] }

def lbTieBroker : MessageBroker :=
  register_agent (register_agent emptyBroker "b2" (opsInfo "B2")) "a2" (opsInfo "A2")

def lbTieMsg : AgentMessage :=
  { id := "m4", sender_id := "ceo", recipient_id := "ops",
    message_type := "task_request", content := ⟨none⟩, priority := "medium" }

/-- C3 counterexample: with agents registered in the order `b2`, `a2`, both
in category `ops` and both at load 0 (a tie on `current_load`), the
load-balanced send delivers to `b2`, although `a2 < b2` — the claimed
tie-break by agent id ascending would have selected `a2`. -/
theorem C3_counterexample :
    lb_key lbTieBroker "a2" = lb_key lbTieBroker "b2" ∧
    "a2".data < "b2".data ∧
    dictGet (route_load_balanced lbTieBroker lbTieMsg).2.message_queues "b2" =
      some [{ lbTieMsg with recipient_id := "b2" }] ∧
    dictGet (route_load_balanced lbTieBroker lbTieMsg).2.message_queues "a2" =
      some [] := by
  refine ⟨by decide, by decide, by decide, by decide⟩

/-- C3 (amended): a load-balanced send to a category with at least one
registered agent selects an agent of minimal `current_load`; ties are broken
by dict-iteration (registration) order — the selected agent is preceded in
the category list only by agents of strictly larger load — and the message
is then routed Direct to it.  (With loads `{A:3, B:1, C:5}` this still
selects `B`, as the witness shows.) -/
theorem C3_load_balanced_first_min (s : MessageBroker) (m : AgentMessage) (sel : String)
    (hsel : pyMinBy (lb_key s) (category_agents s m.recipient_id) = some sel) :
    (∃ l₁ l₂, category_agents s m.recipient_id = l₁ ++ sel :: l₂ ∧
      ∀ a ∈ l₁, lb_key s sel < lb_key s a) ∧
    (∀ a ∈ category_agents s m.recipient_id, lb_key s sel ≤ lb_key s a) ∧
    route_load_balanced s m = route_direct s { m with recipient_id := sel } := by
  have hroute : route_load_balanced s m = route_direct s { m with recipient_id := sel } := by
    simp [route_load_balanced, hsel]
  cases hca : category_agents s m.recipient_id with
  | nil => rw [hca] at hsel; simp [pyMinBy] at hsel
  | cons x rest =>
      rw [hca] at hsel
      have hfold : pyFoldMin (lb_key s) x rest = sel := by
        simpa [pyMinBy] using hsel
      refine ⟨?_, ?_, hroute⟩
      · obtain ⟨l₁, l₂, hdec, hlt⟩ := pyFoldMin_first (lb_key s) rest x
        exact ⟨l₁, l₂, by rw [hdec, hfold], by rw [← hfold]; exact hlt⟩
      · intro a ha
        rw [← hfold]
        rcases List.mem_cons.mp ha with ha | ha
        · rw [ha]; exact (pyFoldMin_le (lb_key s) rest x).1
        · exact (pyFoldMin_le (lb_key s) rest x).2 a ha

def lbLoadsBroker : MessageBroker :=
  { agents := [("A", opsInfo "A"), ("B", opsInfo "B"), ("C", opsInfo "C")],
    message_queues := [("A", []), ("B", []), ("C", [])],
    message_history := [], active_routes := [],
    metrics := { messages_sent := 0, messages_delivered := 0, messages_failed := 0,
                 active_connections := 3 },
    retry_queues := [],
    agent_loads := [("A", 3), ("B", 1), ("C", 5)],
    skill_registry := [("A", []), ("B", []), ("C", [])] }

def lbLoadsMsg : AgentMessage :=
  { id := "m6", sender_id := "ceo", recipient_id := "ops",
    message_type := "task_request", content := ⟨none⟩, priority := "medium" }

/-- Witness for C3 (amended): with loads `{A:3, B:1, C:5}` the load-balanced
send selects `B` and `B`'s mailbox receives the message. -/
theorem C3_load_balanced_first_min_witness :
    pyMinBy (lb_key lbLoadsBroker) (category_agents lbLoadsBroker "ops") = some "B" ∧
    route_load_balanced lbLoadsBroker lbLoadsMsg =
      route_direct lbLoadsBroker { lbLoadsMsg with recipient_id := "B" } ∧
    dictGet (route_load_balanced lbLoadsBroker lbLoadsMsg).2.message_queues "B" =
      some [{ lbLoadsMsg with recipient_id := "B" }] := by
  have h := C3_load_balanced_first_min lbLoadsBroker lbLoadsMsg "B" (by decide)
  exact ⟨by decide, h.2.2, by decide⟩

/-! Skill-based routing (C9). -/

def skInfo (n : String) : AgentInfo :=
  { name := n, department := "ops", capabilities := ["x"] }

def skTieBroker : MessageBroker :=
  register_agent (register_agent emptyBroker "b3" (skInfo "B3")) "a3" (skInfo "A3")

def skTieMsg : AgentMessage :=
  { id := "m5", sender_id := "ceo", recipient_id := "b3",
    message_type := "task_request", content := ⟨some ["x"]⟩, priority := "medium" }

/-- C9 counterexample: with agents registered in the order `b3`, `a3`, both
advertising exactly the required skill (equal, maximal overlap), the
skill-based send delivers to `b3`, although `a3 < b3` — the claimed
tie-break by agent id ascending would have selected `a3`. -/
theorem C9_counterexample :
    skill_key skTieBroker ["x"] "a3" = skill_key skTieBroker ["x"] "b3" ∧
    "a3".data < "b3".data ∧
    dictGet (route_skill_based skTieBroker skTieMsg).2.message_queues "b3" =
      some [{ skTieMsg with recipient_id := "b3" }] ∧
    dictGet (route_skill_based skTieBroker skTieMsg).2.message_queues "a3" =
      some [] := by
  refine ⟨by decide, by decide, by decide, by decide⟩

/-- C9 (amended): for a skill-based send carrying a non-empty
`required_skills` list, if no registered agent's capability set intersects
the required skills the send fails with the state unchanged; if some agent
matches, the one selected has maximal overlap with the required skills, ties
broken by dict-iteration (registration) order — only strictly worse agents
precede it in the matching list — and the message is routed Direct to it. -/
theorem C9_skill_based_first_max (s : MessageBroker) (m : AgentMessage) (rs : List String)
    (hrs : m.content.required_skills = some rs) (hne : rs ≠ []) :
    (matching_agents_for s rs = [] → route_skill_based s m = (false, s)) ∧
    ∀ sel, pyMaxBy (skill_key s rs) (matching_agents_for s rs) = some sel →
      (∃ l₁ l₂, matching_agents_for s rs = l₁ ++ sel :: l₂ ∧
        ∀ a ∈ l₁, skill_key s rs a < skill_key s rs sel) ∧
      (∀ a ∈ matching_agents_for s rs, skill_key s rs a ≤ skill_key s rs sel) ∧
      route_skill_based s m = route_direct s { m with recipient_id := sel } := by
  cases rs with
  | nil => exact absurd rfl hne
  | cons r rtail =>
      constructor
      · intro hmatch
        simp [route_skill_based, hrs, hmatch, pyMaxBy]
      · intro sel hsel
        have hroute : route_skill_based s m =
            route_direct s { m with recipient_id := sel } := by
          simp [route_skill_based, hrs, hsel]
        cases hca : matching_agents_for s (r :: rtail) with
        | nil => rw [hca] at hsel; simp [pyMaxBy] at hsel
        | cons x rest =>
            rw [hca] at hsel
            have hfold : pyFoldMax (skill_key s (r :: rtail)) x rest = sel := by
              simpa [pyMaxBy] using hsel
            refine ⟨?_, ?_, hroute⟩
            · obtain ⟨l₁, l₂, hdec, hlt⟩ := pyFoldMax_first (skill_key s (r :: rtail)) rest x
              exact ⟨l₁, l₂, by rw [hdec, hfold], by rw [← hfold]; exact hlt⟩
            · intro a ha
              rw [← hfold]
              rcases List.mem_cons.mp ha with ha | ha
              · rw [ha]; exact (pyFoldMax_ge (skill_key s (r :: rtail)) rest x).1
              · exact (pyFoldMax_ge (skill_key s (r :: rtail)) rest x).2 a ha

def skBroker : MessageBroker :=
  register_agent
    (register_agent emptyBroker "p"
      { name := "P", department := "ops", capabilities := ["x"] })
    "q" { name := "Q", department := "ops", capabilities := ["x", "y"] }

def skMsg : AgentMessage :=
  { id := "m7", sender_id := "ceo", recipient_id := "p",
    message_type := "task_request", content := ⟨some ["x", "y"]⟩, priority := "medium" }

def skMsgNoMatch : AgentMessage :=
  { id := "m8", sender_id := "ceo", recipient_id := "p",
    message_type := "task_request", content := ⟨some ["z"]⟩, priority := "medium" }

/-- Witness for C9 (amended): requiring `x` and `y` selects `q` (overlap 2
beats `p`'s overlap 1) and `q`'s mailbox receives the message; requiring the
unknown skill `z` fails with the state unchanged. -/
theorem C9_skill_based_first_max_witness :
    route_skill_based skBroker skMsg =
      route_direct skBroker { skMsg with recipient_id := "q" } ∧
    dictGet (route_skill_based skBroker skMsg).2.message_queues "q" =
      some [{ skMsg with recipient_id := "q" }] ∧
    route_skill_based skBroker skMsgNoMatch = (false, skBroker) := by
  have h := C9_skill_based_first_max skBroker skMsg ["x", "y"] rfl (by decide)
  have h2 := C9_skill_based_first_max skBroker skMsgNoMatch ["z"] rfl (by decide)
  obtain ⟨-, hmax⟩ := h
  obtain ⟨-, -, hsel3⟩ := hmax "q" (by decide)
  exact ⟨hsel3, by decide, h2.1 (by decide)⟩

/-! Round-robin routing (C4). -/

/-- C4: a round-robin send to a category with agents selects the agent at
index `messages_sent % len` of the category list (the broker's
never-decremented total-sent counter at call time, an index always in
range) and routes Direct to it; an empty category fails cleanly with the
state unchanged — the modulo indexing is never reached. -/
theorem C4_round_robin (s : MessageBroker) (m : AgentMessage) :
    (category_agents s m.recipient_id = [] → route_round_robin s m = (false, s)) ∧
    ∀ x rest, category_agents s m.recipient_id = x :: rest →
      s.metrics.messages_sent % (x :: rest).length < (x :: rest).length ∧
      route_round_robin s m = route_direct s { m with recipient_id := (x :: rest).getD (s.metrics.messages_sent % (x :: rest).length) "" } := by
  constructor
  · intro h
    simp [route_round_robin, h]
  · intro x rest h
    refine ⟨Nat.mod_lt _ (by simp), ?_⟩
    simp [route_round_robin, h]

def rrInfo (n : String) : AgentInfo :=
  { name := n, department := "sales", capabilities := [] }

def rrBroker : MessageBroker :=
  register_agent (register_agent emptyBroker "A" (rrInfo "A")) "B" (rrInfo "B")

def rrSend (s : MessageBroker) (fid : String) : String × MessageBroker :=
  send_message s "ceo" "sales" "task_request" ⟨none⟩ "medium"
    RoutingStrategy.round_robin fid

def rrS3 : MessageBroker :=
  (rrSend (rrSend (rrSend rrBroker "r1").2 "r2").2 "r3").2

def rrMsg1 : AgentMessage := mkMessage "r1" "ceo" "sales" "task_request" ⟨none⟩ "medium"

def rrMsg0 : AgentMessage := mkMessage "r0" "ceo" "sales" "task_request" ⟨none⟩ "medium"

/-- Witness for C4: with the 2-agent category `sales` = `[A, B]`, the first
round-robin send (counter 0) goes to `A`; after three sequential sends the
mailboxes hold ids `[r1, r3]` at `A` and `[r2]` at `B` — the `A, B, A`
alternation — and a round-robin send on an empty registry fails cleanly. -/
theorem C4_round_robin_witness :
    route_round_robin rrBroker rrMsg1 =
      route_direct rrBroker { rrMsg1 with recipient_id := "A" } ∧
    (dictGet rrS3.message_queues "A").map (List.map AgentMessage.id) = some ["r1", "r3"] ∧
    (dictGet rrS3.message_queues "B").map (List.map AgentMessage.id) = some ["r2"] ∧
    route_round_robin emptyBroker rrMsg0 = (false, emptyBroker) := by
  have h1 := (C4_round_robin rrBroker rrMsg1).2 "A" ["B"] (by decide)
  have h0 := (C4_round_robin emptyBroker rrMsg0).1 (by decide)
  exact ⟨h1.2, by decide, by decide, h0⟩

/-! Broadcast fan-out (C7). -/

theorem broadcast_loop_not_mem (m : AgentMessage) (ts : List String) :
    ∀ s count aid, aid ∉ ts →
      dictGet (broadcast_loop m ts count s).2.message_queues aid =
        dictGet s.message_queues aid := by
  induction ts with
  | nil => intro s count aid h; rfl
  | cons b rest ih =>
      intro s count aid h
      have hne : aid ≠ b := fun hh => h (hh ▸ List.mem_cons_self b rest)
      have hrest : aid ∉ rest := fun hh => h (List.mem_cons_of_mem b hh)
      cases hq : dictGet s.message_queues b with
      | none =>
          simp only [broadcast_loop, hq]
          exact ih _ _ _ hrest
      | some q =>
          simp only [broadcast_loop, hq]
          rw [ih _ _ _ hrest]
          exact dictGet_dictSet_ne s.message_queues b aid (q ++ [broadcast_clone m b]) hne

theorem broadcast_loop_mem (m : AgentMessage) (ts : List String) :
    ∀ s count aid q, ts.Nodup → aid ∈ ts →
      dictGet s.message_queues aid = some q →
      dictGet (broadcast_loop m ts count s).2.message_queues aid =
        some (q ++ [broadcast_clone m aid]) := by
  induction ts with
  | nil => intro s count aid q _ h; cases h
  | cons b rest ih =>
      intro s count aid q hnd hmem hq
      by_cases hab : aid = b
      · subst hab
        simp only [broadcast_loop, hq]
        have hnot : aid ∉ rest := (List.nodup_cons.mp hnd).1
        rw [broadcast_loop_not_mem m rest _ _ _ hnot]
        exact dictGet_dictSet_self s.message_queues aid (q ++ [broadcast_clone m aid])
      · have hmem2 : aid ∈ rest := by
          rcases List.mem_cons.mp hmem with hh | hh
          · exact absurd hh hab
          · exact hh
        cases hqb : dictGet s.message_queues b with
        | none =>
            simp only [broadcast_loop, hqb]
            exact ih _ _ _ _ (List.nodup_cons.mp hnd).2 hmem2 hq
        | some qb =>
            simp only [broadcast_loop, hqb]
            refine ih _ _ _ _ (List.nodup_cons.mp hnd).2 hmem2 ?_
            rw [dictGet_dictSet_ne s.message_queues b aid (qb ++ [broadcast_clone m b]) hab]
            exact hq

theorem broadcast_loop_count (m : AgentMessage) (ts : List String) :
    ∀ s count, (∀ b ∈ ts, (dictGet s.message_queues b).isSome = true) →
      (broadcast_loop m ts count s).1 = count + ts.length := by
  induction ts with
  | nil => intro s count _; rfl
  | cons b rest ih =>
      intro s count h
      have hb := h b (List.mem_cons_self b rest)
      cases hq : dictGet s.message_queues b with
      | none => rw [hq] at hb; simp at hb
      | some q =>
          simp only [broadcast_loop, hq]
          have hall : ∀ x ∈ rest,
              (dictGet (dictSet s.message_queues b (q ++ [broadcast_clone m b])) x).isSome
                = true := by
            intro x hx
            by_cases hxb : x = b
            · subst hxb
              rw [dictGet_dictSet_self]
              rfl
            · rw [dictGet_dictSet_ne s.message_queues b x (q ++ [broadcast_clone m b]) hxb]
              exact h x (List.mem_cons_of_mem b hx)
          rw [ih _ _ hall]
          simp [List.length_cons]
          omega

/-- C7: broadcasting to a department enqueues exactly one clone, carrying the
derived id, per registered agent of that department — each target mailbox
grows by exactly its own clone, every other mailbox is untouched — and the
broadcast reports success exactly when at least one clone was enqueued
(the target list is non-empty).  When the recipient is not the literal
`"all"`, the target list is precisely the department's agent list. -/
theorem C7_broadcast_fanout (s : MessageBroker) (m : AgentMessage)
    (hnd : (broadcast_targets s m.recipient_id).Nodup)
    (hall : ∀ b ∈ broadcast_targets s m.recipient_id,
      (dictGet s.message_queues b).isSome = true) :
    ((route_broadcast s m).1 = true ↔ broadcast_targets s m.recipient_id ≠ []) ∧
    (∀ aid q, aid ∈ broadcast_targets s m.recipient_id →
      dictGet s.message_queues aid = some q →
      dictGet (route_broadcast s m).2.message_queues aid =
        some (q ++ [broadcast_clone m aid])) ∧
    (∀ aid, aid ∉ broadcast_targets s m.recipient_id →
      dictGet (route_broadcast s m).2.message_queues aid =
        dictGet s.message_queues aid) ∧
    (m.recipient_id ≠ "all" →
      broadcast_targets s m.recipient_id = category_agents s m.recipient_id) := by
  refine ⟨?_, ?_, ?_, ?_⟩
  · have hc := broadcast_loop_count m (broadcast_targets s m.recipient_id) s 0 hall
    simp only [route_broadcast, hc]
    constructor
    · intro h
      intro hnil
      rw [hnil] at h
      simp at h
    · intro h
      have : (broadcast_targets s m.recipient_id).length ≠ 0 :=
        fun hh => h (List.length_eq_zero.mp hh)
      simp
      omega
  · intro aid q hmem hq
    exact broadcast_loop_mem m (broadcast_targets s m.recipient_id) s 0 aid q hnd hmem hq
  · intro aid hmem
    exact broadcast_loop_not_mem m (broadcast_targets s m.recipient_id) s 0 aid hmem
  · intro hne
    unfold broadcast_targets category_agents
    congr 1
    apply List.filter_congr
    intro p _
    simp [hne]

def mkInfo (n dept : String) : AgentInfo :=
  { name := n, department := dept, capabilities := [] }

def bcBroker : MessageBroker :=
  register_agent
    (register_agent (register_agent emptyBroker "D1" (mkInfo "D1" "mkt"))
      "D2" (mkInfo "D2" "mkt"))
    "E" (mkInfo "E" "eng")

def bcMsg : AgentMessage :=
  { id := "b0", sender_id := "ceo", recipient_id := "mkt",
    message_type := "coordination", content := ⟨none⟩, priority := "high" }

/-- Witness for C7: broadcasting to department `mkt` of a 3-agent broker
(two in `mkt`, one in `eng`) succeeds, puts exactly the clones `b0_D1` and
`b0_D2` in the two `mkt` mailboxes, and leaves the `eng` mailbox empty. -/
theorem C7_broadcast_fanout_witness :
    (route_broadcast bcBroker bcMsg).1 = true ∧
    dictGet (route_broadcast bcBroker bcMsg).2.message_queues "D1" =
      some [broadcast_clone bcMsg "D1"] ∧
    dictGet (route_broadcast bcBroker bcMsg).2.message_queues "D2" =
      some [broadcast_clone bcMsg "D2"] ∧
    dictGet (route_broadcast bcBroker bcMsg).2.message_queues "E" = some [] ∧
    (broadcast_clone bcMsg "D1").id = "b0_D1" := by
  obtain ⟨hiff, hmem, hnot, -⟩ := C7_broadcast_fanout bcBroker bcMsg (by decide) (by decide)
  refine ⟨hiff.mpr (by decide), ?_, ?_, ?_, by decide⟩
  · simpa using hmem "D1" [] (by decide) (by decide)
  · simpa using hmem "D2" [] (by decide) (by decide)
  · rw [hnot "E" (by decide)]
    decide

/-! Routing never touches the metrics counters; `send_message` alone updates
them afterwards (C2). -/

theorem broadcast_loop_metrics (m : AgentMessage) (ts : List String) :
    ∀ s count, (broadcast_loop m ts count s).2.metrics = s.metrics := by
  induction ts with
  | nil => intro s count; rfl
  | cons b rest ih =>
      intro s count
      cases hq : dictGet s.message_queues b with
      | none => simp only [broadcast_loop, hq]; exact ih _ _
      | some q => simp only [broadcast_loop, hq]; exact ih _ _

theorem route_direct_metrics (s : MessageBroker) (m : AgentMessage) :
    (route_direct s m).2.metrics = s.metrics := by
  cases hq : dictGet s.message_queues m.recipient_id <;> simp [route_direct, hq]

theorem route_message_metrics (s : MessageBroker) (m : AgentMessage)
    (strat : RoutingStrategy) : (route_message s m strat).2.metrics = s.metrics := by
  cases strat with
  | direct => exact route_direct_metrics s m
  | broadcast =>
      show (route_broadcast s m).2.metrics = s.metrics
      simp only [route_broadcast]
      exact broadcast_loop_metrics m _ s 0
  | round_robin =>
      show (route_round_robin s m).2.metrics = s.metrics
      by_cases h : (category_agents s m.recipient_id).isEmpty
      · simp [route_round_robin, h]
      · simp [route_round_robin, h, route_direct_metrics]
  | load_balanced =>
      show (route_load_balanced s m).2.metrics = s.metrics
      cases hm : pyMinBy (lb_key s) (category_agents s m.recipient_id) with
      | none => simp [route_load_balanced, hm]
      | some sel => simp [route_load_balanced, hm, route_direct_metrics]
  | skill_based =>
      show (route_skill_based s m).2.metrics = s.metrics
      by_cases h : (m.content.required_skills.getD []).isEmpty
      · simp [route_skill_based, h, route_direct_metrics]
      · cases hm : pyMaxBy (skill_key s (m.content.required_skills.getD []))
            (matching_agents_for s (m.content.required_skills.getD [])) with
        | none => simp [route_skill_based, h, hm]
        | some sel => simp [route_skill_based, h, hm, route_direct_metrics]

def c2Fail : String × MessageBroker :=
  send_message emptyBroker "alice" "nobody" "task_request" ⟨none⟩ "medium"
    RoutingStrategy.direct "msg1"

/-- C2 counterexample: a Send whose routing finds no recipient (Direct to the
unregistered `nobody`) hands the caller nothing but the message id `msg1` —
the very same shape a successful send returns — while the routing failure is
recorded only in `metrics.messages_failed` and the route record's
`delivery_status`; no error value reaches the caller. -/
theorem C2_counterexample :
    send_routing_result emptyBroker "alice" "nobody" "task_request" ⟨none⟩ "medium"
      RoutingStrategy.direct "msg1" = false ∧
    c2Fail.1 = "msg1" ∧
    c2Fail.2.metrics.messages_failed = 1 ∧
    dictGet c2Fail.2.active_routes "msg1" =
      some { sender_id := "alice", recipient_id := "nobody", message_id := "msg1",
             delivery_status := "failed" } ∧
    (send_message rdBroker "bob" "alice" "task_request" ⟨none⟩ "medium"
      RoutingStrategy.direct "msg1").1 = "msg1" := by
  decide

/-- C2 (amended): a Send whose routing fails still returns exactly the fresh
message id to its caller; the failure is reported only by incrementing
`metrics.messages_failed` (the sent counter stays put) and by marking the
route record `"failed"` — it is not part of the call's outcome. -/
theorem C2_send_failure_not_surfaced (s : MessageBroker)
    (sender recipient mtype : String) (content : MsgContent) (prio : String)
    (strat : RoutingStrategy) (fid : String)
    (hfail : send_routing_result s sender recipient mtype content prio strat fid = false) :
    (send_message s sender recipient mtype content prio strat fid).1 = fid ∧
    (send_message s sender recipient mtype content prio strat fid).2.metrics.messages_failed
      = s.metrics.messages_failed + 1 ∧
    (send_message s sender recipient mtype content prio strat fid).2.metrics.messages_sent
      = s.metrics.messages_sent ∧
    dictGet (send_message s sender recipient mtype content prio strat fid).2.active_routes fid
      = some { sender_id := sender, recipient_id := recipient, message_id := fid,
               delivery_status := "failed" } := by
  simp only [send_routing_result, mkMessage] at hfail
  simp only [send_message, mkMessage, hfail, Bool.false_eq_true, if_false]
  refine ⟨trivial, ?_, ?_, ?_⟩
  · simp [route_message_metrics]
  · simp [route_message_metrics]
  · simp [dictGet_dictSet_self]

/-- Witness for C2 (amended) at the concrete failing send of the
counterexample's shape, with a fresh id. -/
theorem C2_send_failure_not_surfaced_witness :
    send_routing_result emptyBroker "alice" "nobody" "task_request" ⟨none⟩ "medium"
      RoutingStrategy.direct "msg2" = false ∧
    (send_message emptyBroker "alice" "nobody" "task_request" ⟨none⟩ "medium"
      RoutingStrategy.direct "msg2").1 = "msg2" ∧
    (send_message emptyBroker "alice" "nobody" "task_request" ⟨none⟩ "medium"
      RoutingStrategy.direct "msg2").2.metrics.messages_failed = 1 := by
  have h := C2_send_failure_not_surfaced emptyBroker "alice" "nobody" "task_request"
    ⟨none⟩ "medium" RoutingStrategy.direct "msg2" (by decide)
  exact ⟨by decide, h.1, by simpa using h.2.1⟩

/-! The delivery loop's exception path (C5) and the retry backlog (C1). -/

def c5Broker : MessageBroker :=
  register_agent emptyBroker "a" { name := "A", department := "ops", capabilities := [] }

def c5Msg : AgentMessage :=
  { id := "m9", sender_id := "x", recipient_id := "a",
    message_type := "task_request", content := ⟨none⟩, priority := "medium" }

def c5S : MessageBroker := (route_direct c5Broker c5Msg).2

/-- C5 counterexample: agent `a` has one in-flight message and
`current_load = 1`; the hand-off raises, the message lands in the retry
backlog and `messages_failed` is bumped — but `current_load` is still 1
afterwards: the decrement sits after the hand-off inside the `try` and is
skipped on the exception, contradicting the claim that the slot is freed. -/
theorem C5_counterexample :
    dictGet c5S.agent_loads "a" = some 1 ∧
    dictGet (process_agent_step c5S "a" true).retry_queues "a" = some [c5Msg] ∧
    dictGet (process_agent_step c5S "a" true).agent_loads "a" = some 1 ∧
    (process_agent_step c5S "a" true).metrics.messages_failed = 1 ∧
    (process_agent_step c5S "a" true).metrics.messages_delivered = 0 := by
  decide

/-- C5 (amended): when the hand-off of a popped mailbox message raises, the
delivery loop appends the message to that agent's retry backlog (uncapped)
and bumps `messages_failed`, while the success path's load decrement,
delivered counter and route update are all skipped — `current_load` is not
decremented and the route record is untouched. -/
theorem C5_exception_keeps_load (s : MessageBroker) (agent_id : String)
    (msg : AgentMessage) (rest : List AgentMessage)
    (hq : dictGet s.message_queues agent_id = some (msg :: rest))
    (hreg : (dictGet s.agents agent_id).isSome = true) :
    dictGet (process_agent_step s agent_id true).retry_queues agent_id =
      some (((dictGet s.retry_queues agent_id).getD []) ++ [msg]) ∧
    (process_agent_step s agent_id true).agent_loads = s.agent_loads ∧
    (process_agent_step s agent_id true).metrics.messages_failed =
      s.metrics.messages_failed + 1 ∧
    (process_agent_step s agent_id true).metrics.messages_delivered =
      s.metrics.messages_delivered ∧
    (process_agent_step s agent_id true).active_routes = s.active_routes ∧
    dictGet (process_agent_step s agent_id true).message_queues agent_id = some rest := by
  simp [process_agent_step, hq, hreg, deliver_to_agent, dictGet_dictSet_self]

/-- Witness for C5 (amended) at the concrete one-message state. -/
theorem C5_exception_keeps_load_witness :
    dictGet c5S.message_queues "a" = some [c5Msg] ∧
    dictGet (process_agent_step c5S "a" true).retry_queues "a" = some [c5Msg] ∧
    (process_agent_step c5S "a" true).agent_loads = c5S.agent_loads := by
  have h := C5_exception_keeps_load c5S "a" c5Msg [] (by decide) (by decide)
  exact ⟨by decide, by simpa using h.1, h.2.1⟩

def c1Msgs : List AgentMessage :=
  (List.range 150).map fun i =>
    { id := "f" ++ toString i, sender_id := "x", recipient_id := "a",
      message_type := "task_request", content := ⟨none⟩, priority := "medium" }

def c1Broker : MessageBroker :=
  { c5Broker with message_queues := dictSet c5Broker.message_queues "a" c1Msgs }

/-- C1: the retry backlog cap is violated.  150 consecutive delivery
failures for agent `a` leave 150 entries in its retry backlog, not 100: the
append in `_deliver_to_agent` is uncapped.  A further failing retry pass
leaves the backlog at 150 — nothing is dropped, because `_deliver_to_agent`
re-appends the popped message unconditionally before the capped re-append
in `_retry_processor` is even consulted; on a short backlog that second
append duplicates the entry (1 entry becomes 2).  The only signal anywhere
is the `messages_failed` counter — no `RetryExhausted`-style permanent
failure is ever recorded. -/
theorem C1_retry_cap_violated :
    ((dictGet (processFailN c1Broker "a" 150).retry_queues "a").getD []).length = 150 ∧
    ((dictGet (retry_agent_step (processFailN c1Broker "a" 150) "a" true).retry_queues
      "a").getD []).length = 150 ∧
    ((dictGet (retry_agent_step (processFailN c1Broker "a" 1) "a" true).retry_queues
      "a").getD []).length = 2 ∧
    (processFailN c1Broker "a" 150).metrics.messages_failed = 150 := by
  set_option maxRecDepth 10000 in decide

/-! The default sequential workflow short-circuits on a step exception (C6). -/

theorem send_message_fst (s : MessageBroker) (a b c : String) (content : MsgContent)
    (p : String) (strat : RoutingStrategy) (fid : String) :
    (send_message s a b c content p strat fid).1 = fid := rfl

/-- Every send settles as exactly one of sent/failed, so their sum counts the
send calls made. -/
theorem send_message_sent_failed (s : MessageBroker) (a b c : String)
    (content : MsgContent) (p : String) (strat : RoutingStrategy) (fid : String) :
    (send_message s a b c content p strat fid).2.metrics.messages_sent +
      (send_message s a b c content p strat fid).2.metrics.messages_failed =
    s.metrics.messages_sent + s.metrics.messages_failed + 1 := by
  simp only [send_message]
  split
  · simp [route_message_metrics]
    omega
  · simp [route_message_metrics]
    omega

/-- The `steps_completed` records the default workflow writes for the next
`n` steps over the remaining agents, starting with `i` steps already done. -/
def stepRecords (freshIds : Nat → String) : List String → Nat → Nat → List StepRecord
  | _, _, 0 => []
  | [], _, _ + 1 => []
  | a :: rest, i, n + 1 =>
      { step := i + 1, agent_id := a, message_id := freshIds (i + 1) } ::
        stepRecords freshIds rest (i + 1) n

theorem stepRecords_length (freshIds : Nat → String) :
    ∀ as i n, n ≤ List.length as → (stepRecords freshIds as i n).length = n := by
  intro as
  induction as with
  | nil =>
      intro i n h
      cases n with
      | zero => rfl
      | succ r => exact absurd h (Nat.not_succ_le_zero r)
  | cons a rest ih =>
      intro i n h
      cases n with
      | zero => rfl
      | succ r =>
          have hr : r ≤ rest.length := by simpa using Nat.succ_le_succ_iff.mp (by simpa using h)
          simp [stepRecords, ih (i + 1) r hr]

theorem runSteps_fail (freshIds : Nat → String) (stepExc : Nat → Option String)
    (as : List String) :
    ∀ i broker wf results k e, stepExc k = some e → i < k → k ≤ i + as.length →
      (∀ j, i < j → j < k → stepExc j = none) →
      (runSteps freshIds stepExc as i broker wf results).1 = Except.error e ∧
      (runSteps freshIds stepExc as i broker wf results).2.2 =
        { wf with steps_completed :=
            wf.steps_completed ++ stepRecords freshIds as i (k - 1 - i) } ∧
      (runSteps freshIds stepExc as i broker wf results).2.1.metrics.messages_sent +
        (runSteps freshIds stepExc as i broker wf results).2.1.metrics.messages_failed =
      broker.metrics.messages_sent + broker.metrics.messages_failed + (k - 1 - i) := by
  induction as with
  | nil =>
      intro i broker wf results k e hk hik hlen hok
      exfalso
      simp only [List.length_nil] at hlen
      omega
  | cons a rest ih =>
      intro i broker wf results k e hk hik hlen hok
      by_cases hik1 : k = i + 1
      · subst hik1
        simp only [runSteps, hk]
        have h0 : i + 1 - 1 - i = 0 := by omega
        rw [h0]
        exact ⟨trivial, by simp [stepRecords], by simp⟩
      · have hik2 : i + 1 < k := by omega
        have hnone : stepExc (i + 1) = none := hok (i + 1) (by omega) hik2
        have hlen2 : k ≤ (i + 1) + rest.length := by
          simp only [List.length_cons] at hlen
          omega
        have hok2 : ∀ j, i + 1 < j → j < k → stepExc j = none := by
          intro j hj1 hj2
          exact hok j (by omega) hj2
        have hres := ih (i + 1)
          (send_message broker "workflow_orchestrator" a "task_request" ⟨none⟩ "high"
            RoutingStrategy.direct (freshIds (i + 1))).2
          { wf with steps_completed := wf.steps_completed ++
              [{ step := i + 1, agent_id := a, message_id :=
                  (send_message broker "workflow_orchestrator" a "task_request" ⟨none⟩ "high"
                    RoutingStrategy.direct (freshIds (i + 1))).1 }] }
          (results ++ ["Step " ++ toString (i + 1) ++ " completed by " ++ a])
          k e hk hik2 hlen2 hok2
        simp only [runSteps, hnone]
        refine ⟨hres.1, ?_, ?_⟩
        · rw [hres.2.1]
          have harith : k - 1 - i = (k - 1 - (i + 1)) + 1 := by omega
          rw [harith]
          simp [stepRecords, send_message_fst]
        · have hb := send_message_sent_failed broker "workflow_orchestrator" a
            "task_request" ⟨none⟩ "high" RoutingStrategy.direct (freshIds (i + 1))
          have h3 := hres.2.2
          omega

/-- C6: if step `k` of a default workflow raises (all earlier steps clean,
`k` within the plan), the instance ends `"failed"` with `error` set to that
exception, `steps_completed` holds exactly the records of steps `1..k-1`
(so length `k-1`), and exactly `k-1` broker sends were issued — the
remaining steps are never invoked. -/
theorem C6_workflow_short_circuit (broker : MessageBroker) (wid wname : String)
    (agents : List String) (freshIds : Nat → String) (stepExc : Nat → Option String)
    (k : Nat) (e : String) (hk : stepExc k = some e) (h0 : 0 < k)
    (hlen : k ≤ agents.length)
    (hok : ∀ j, 0 < j → j < k → stepExc j = none) :
    (execute_workflow_default broker wid wname agents freshIds stepExc).2.status = "failed" ∧
    (execute_workflow_default broker wid wname agents freshIds stepExc).2.error = some e ∧
    (execute_workflow_default broker wid wname agents freshIds stepExc).2.steps_completed =
      stepRecords freshIds agents 0 (k - 1) ∧
    (execute_workflow_default broker wid wname agents freshIds
      stepExc).2.steps_completed.length = k - 1 ∧
    (execute_workflow_default broker wid wname agents freshIds
        stepExc).1.metrics.messages_sent +
      (execute_workflow_default broker wid wname agents freshIds
        stepExc).1.metrics.messages_failed =
      broker.metrics.messages_sent + broker.metrics.messages_failed + (k - 1) := by
  have hrs := runSteps_fail freshIds stepExc agents 0 broker
    ⟨wid, wname, agents, "running", [], none, none⟩ [] k e hk h0 (by simpa using hlen) hok
  rcases hrun : runSteps freshIds stepExc agents 0 broker
    ⟨wid, wname, agents, "running", [], none, none⟩ [] with ⟨exc, b2, w2⟩
  rw [hrun] at hrs
  obtain ⟨h1, h2, h3⟩ := hrs
  simp only at h1 h2 h3
  subst h1
  have hexec : execute_workflow_default broker wid wname agents freshIds stepExc =
      (b2, { w2 with status := "failed", error := some e }) := by
    simp only [execute_workflow_default, hrun]
  have hsteps : w2.steps_completed = stepRecords freshIds agents 0 (k - 1) := by
    rw [h2]
    simp
  rw [hexec]
  refine ⟨rfl, rfl, ?_, ?_, ?_⟩
  · exact hsteps
  · have hl := stepRecords_length freshIds agents 0 (k - 1) (by omega)
    show w2.steps_completed.length = k - 1
    rw [hsteps]
    exact hl
  · show b2.metrics.messages_sent + b2.metrics.messages_failed =
      broker.metrics.messages_sent + broker.metrics.messages_failed + (k - 1)
    simp only [Nat.sub_zero] at h3
    exact h3

def wfBroker : MessageBroker :=
  register_agent (register_agent (register_agent (register_agent emptyBroker
    "a1" (mkInfo "a1" "ops")) "a2" (mkInfo "a2" "ops")) "a3" (mkInfo "a3" "ops"))
    "a4" (mkInfo "a4" "ops")

def wfExc : Nat → Option String := fun j => if j = 2 then some "boom" else none

def wfIds : Nat → String := fun j => "w" ++ toString j

def wfRun : MessageBroker × WorkflowInstance :=
  execute_workflow_default wfBroker "wf1" "demo" ["a1", "a2", "a3", "a4"] wfIds wfExc

/-- Witness for C6: a 4-step workflow whose step 2 raises `boom` ends failed
with error `boom`, one completed-step record, one send (to `a1`), and the
mailboxes of `a2`, `a3`, `a4` untouched — steps 2 through 4 never ran. -/
theorem C6_workflow_short_circuit_witness :
    wfRun.2.status = "failed" ∧ wfRun.2.error = some "boom" ∧
    wfRun.2.steps_completed.length = 1 ∧
    (dictGet wfRun.1.message_queues "a1").map (List.map AgentMessage.id) = some ["w1"] ∧
    dictGet wfRun.1.message_queues "a2" = some [] ∧
    dictGet wfRun.1.message_queues "a3" = some [] ∧
    dictGet wfRun.1.message_queues "a4" = some [] := by
  have h := C6_workflow_short_circuit wfBroker "wf1" "demo" ["a1", "a2", "a3", "a4"]
    wfIds wfExc 2 "boom" rfl (by decide) (by decide)
    (by intro j h1 h2; interval_cases j; rfl)
  exact ⟨h.1, h.2.1, h.2.2.2.1, by decide, by decide, by decide, by decide⟩

end A2A
